import Mathlib

/-!
Verification of the scraper in `Scraping/scraper.py`.

The program fetches one HTML page, extracts product records with
BeautifulSoup CSS selectors (`parse_products`), and writes them to a CSV
file (`save_csv`).  This file embeds those functions shallowly:

* HTML documents are modelled as already-parsed node trees (`Html`); the
  lxml parsing step is outside the model, so "for every HTML input" is
  read as "for every document tree".
* The CSS selectors actually used by the code (`div.thumbnail`,
  `a.title`, `a`, `h4.price`, `.price`, `p.description`, `p`,
  `div.ratings p.pull-right`, `.ratings`) are simple tag/class selectors
  plus one descendant combinator; they are embedded directly.
* `tag.get_text(strip=True)` concatenates the stripped strings of all
  text descendants, in document order (BeautifulSoup semantics).
* `x or y` on BeautifulSoup tags is None-coalescing, since `Tag.__bool__`
  returns `True`; `select_one` results are `Option Html`.
* Python's `csv` module (writer with the default dialect, and the reader
  used to state the round-trip property) is embedded at character level.
* `requests.Response.raise_for_status` raises `HTTPError` exactly for
  status codes in `[400, 600)`.
-/

set_option autoImplicit false

namespace Scraper

/-- An HTML node: either a text node or an element with a tag name, an
attribute list and children.  Documents are lists of top-level nodes. -/
inductive Html where
  | text (s : String)
  | elem (tag : String) (attrs : List (String × String)) (children : List Html)
deriving Repr

/-- Characters treated as whitespace by Python's `str.strip()` and
`str.split()` (ASCII part, which is all the model needs). -/
def pyWS (c : Char) : Bool :=
  c = ' ' || c = '\t' || c = '\n' || c = '\r' || c = '\x0b' || c = '\x0c'

/-- Python `s.strip()`: drop leading and trailing whitespace. -/
def pyStrip (s : String) : String :=
  ⟨((s.data.dropWhile pyWS).reverse.dropWhile pyWS).reverse⟩

/-- Helper for `pySplitWS`: `acc` holds the current word, reversed. -/
def splitWSAux : List Char → List Char → List String
  | [], acc => if acc.isEmpty then [] else [⟨acc.reverse⟩]
  | c :: rest, acc =>
    if pyWS c then
      if acc.isEmpty then splitWSAux rest [] else ⟨acc.reverse⟩ :: splitWSAux rest []
    else splitWSAux rest (c :: acc)

/-- Python `s.split()` (no argument): splits on runs of whitespace,
producing no empty strings. -/
def pySplitWS (s : String) : List String :=
  splitWSAux s.data []

/-- The class names of an element, as BeautifulSoup parses the `class`
attribute: its value split on whitespace. -/
def classesOf (attrs : List (String × String)) : List String :=
  match attrs.lookup "class" with
  | none => []
  | some v => pySplitWS v

/-- A simple CSS selector: an optional tag name and an optional class,
covering the forms `tag`, `.cls` and `tag.cls` used by the program. -/
structure Simple where
  tag : Option String
  cls : Option String

/-- Whether a node matches a simple selector (text nodes never match). -/
def matchesSimple (s : Simple) (n : Html) : Bool :=
  match n with
  | .text _ => false
  | .elem t attrs _ =>
    (match s.tag with | none => true | some tg => tg == t) &&
    (match s.cls with | none => true | some c => (classesOf attrs).contains c)

mutual

/-- Matches of a simple selector in the subtree rooted at a node, the node
itself included, in document (pre-)order. -/
def selectNode (s : Simple) : Html → List Html
  | .text _ => []
  | .elem t a cs =>
    (if matchesSimple s (.elem t a cs) then [Html.elem t a cs] else [])
      ++ selectForest s cs

/-- Matches of a simple selector in a forest, in document order. -/
def selectForest (s : Simple) : List Html → List Html
  | [] => []
  | n :: ns => selectNode s n ++ selectForest s ns

end

/-- The children of a node (`[]` for a text node). -/
def Html.childList : Html → List Html
  | .text _ => []
  | .elem _ _ cs => cs

/-- The attribute list of a node (`[]` for a text node). -/
def Html.attrsOf : Html → List (String × String)
  | .text _ => []
  | .elem _ a _ => a

/-- `c.select_one(sel)` for a simple selector: the first matching element
among the descendants of `c` (excluding `c` itself). -/
def selectOne (s : Simple) (c : Html) : Option Html :=
  (selectForest s c.childList).head?

mutual

/-- Matches of the descendant combinator `anc des` in the subtree rooted
at a node: elements matching `des` having a strict ancestor matching `anc`
within the searched tree; `seen` records whether such an ancestor is
already above the current node. -/
def selDescNode (anc des : Simple) (seen : Bool) : Html → List Html
  | .text _ => []
  | .elem t a cs =>
    (if seen && matchesSimple des (.elem t a cs) then [Html.elem t a cs] else [])
      ++ selDescForest anc des (seen || matchesSimple anc (.elem t a cs)) cs

/-- Matches of the descendant combinator in a forest, in document order. -/
def selDescForest (anc des : Simple) (seen : Bool) : List Html → List Html
  | [] => []
  | n :: ns => selDescNode anc des seen n ++ selDescForest anc des seen ns

end

/-- `c.select_one("anc des")`: first match of the descendant combinator
among the descendants of `c`. -/
def selectOneDesc (anc des : Simple) (c : Html) : Option Html :=
  (selDescForest anc des false c.childList).head?

mutual

/-- The strings of the text descendants of a node, in document order. -/
def textsNode : Html → List String
  | .text s => [s]
  | .elem _ _ cs => textsForest cs

/-- The strings of the text descendants of a forest, in document order. -/
def textsForest : List Html → List String
  | [] => []
  | n :: ns => textsNode n ++ textsForest ns

end

/-- `tag.get_text(strip=True)`: each descendant string stripped, all
concatenated. -/
def getTextStrip (n : Html) : String :=
  String.join ((textsForest n.childList).map pyStrip)

/-- `tag.get(key)`: attribute lookup, `none` for Python `None`. -/
def attrGet (n : Html) (key : String) : Option String :=
  n.attrsOf.lookup key

/-! ### The selectors used by `parse_products` -/

def selDivThumbnail : Simple := ⟨some "div", some "thumbnail"⟩
def selATitle : Simple := ⟨some "a", some "title"⟩
def selA : Simple := ⟨some "a", none⟩
def selH4Price : Simple := ⟨some "h4", some "price"⟩
def selDotPrice : Simple := ⟨none, some "price"⟩
def selPDescription : Simple := ⟨some "p", some "description"⟩
def selP : Simple := ⟨some "p", none⟩
def selDivRatings : Simple := ⟨some "div", some "ratings"⟩
def selPPullRight : Simple := ⟨some "p", some "pull-right"⟩
def selDotRatings : Simple := ⟨none, some "ratings"⟩

/-! ### `parse_products` -/

/-- One extracted record, mirroring the dict
`{"title": …, "price": …, "description": …, "reviews": …, "url": …}`
built by `parse_products`.  `url` is an `Option` because
`title_tag.get("href")` yields Python `None` when the attribute is
absent; `some s` stands for the Python string `s`. -/
structure Product where
  title : String
  price : String
  description : String
  reviews : String
  url : Option String
deriving Repr, DecidableEq

/-- `tag.get_text(strip=True) if tag else ""` (a found tag is always
truthy, as `Tag.__bool__` returns `True`). -/
def optText : Option Html → String
  | some t => getTextStrip t
  | none => ""

/-- The record extracted from one container `c`, mirroring the loop body
of `parse_products` (scraper.py lines 66–79). -/
def extract (c : Html) : Product :=
  let title_tag := (selectOne selATitle c).orElse (fun _ => selectOne selA c)
  { title := optText title_tag
    price := optText ((selectOne selH4Price c).orElse (fun _ => selectOne selDotPrice c))
    description := optText ((selectOne selPDescription c).orElse (fun _ => selectOne selP c))
    reviews := optText ((selectOneDesc selDivRatings selPPullRight c).orElse
      (fun _ => selectOne selDotRatings c))
    url := match title_tag with
      | some t => attrGet t "href"
      | none => some "" }

/-- The Python truthiness test `max_items and len(items) >= max_items`:
`max_items` is `none` for Python `None`, and an `Int` is truthy iff it is
nonzero. -/
def capHit (max_items : Option Int) (n : Nat) : Bool :=
  match max_items with
  | none => false
  | some v => v != 0 && decide (v ≤ (n : Int))

/-- The `for c in containers` loop of `parse_products`: append the record
of each container, breaking once the cap test fires. -/
def parseLoop (max_items : Option Int) : List Html → List Product → List Product
  | [], items => items
  | c :: cs, items =>
    let items' := items ++ [extract c]
    if capHit max_items items'.length then items' else parseLoop max_items cs items'

/-- All product containers of a document: `soup.select("div.thumbnail")`. -/
def containersOf (doc : List Html) : List Html :=
  selectForest selDivThumbnail doc

/-- `parse_products(html, max_items)` on an already-parsed document. -/
def parse_products (doc : List Html) (max_items : Option Int) : List Product :=
  parseLoop max_items (containersOf doc) []

/-! ### `save_csv`

`save_csv` receives the records produced by `parse_products`: ordered
dicts with the five keys `title, price, description, reviews, url` (the
spec's Record data model).  `csv.DictWriter` is embedded at this record
shape; the file content is modelled as a `List Char` and the filesystem
as the optional previous content of the target file. -/

/-- A well-formed record as written to CSV: five string fields. -/
structure CsvRecord where
  title : String
  price : String
  description : String
  reviews : String
  url : String
deriving Repr, DecidableEq

/-- `list(items[0].keys())`: the keys of a record, in insertion order. -/
def recordKeys (_ : CsvRecord) : List String :=
  ["title", "price", "description", "reviews", "url"]

/-- The values of a record looked up in fieldname order, as
`DictWriter.writerow` does. -/
def csvRowOf (r : CsvRecord) : List String :=
  [r.title, r.price, r.description, r.reviews, r.url]

/-- Characters that force quoting under `QUOTE_MINIMAL` with the default
dialect: the delimiter, the quote char, and the chars of the line
terminator `"\r\n"`. -/
def csvSpecial (c : Char) : Bool :=
  c = ',' || c = '"' || c = '\r' || c = '\n'

/-- Whether a field must be quoted. -/
def csvNeedsQuote (f : List Char) : Bool :=
  f.any csvSpecial

/-- The body of a quoted field: every `"` doubled. -/
def csvEscInner : List Char → List Char
  | [] => []
  | c :: rest => (if c = '"' then ['"', '"'] else [c]) ++ csvEscInner rest

/-- A field as written by Python's csv writer under `QUOTE_MINIMAL`. -/
def csvEscapeField (f : List Char) : List Char :=
  if csvNeedsQuote f then '"' :: (csvEscInner f ++ ['"']) else f

/-- The fields of a row, escaped and comma-separated. -/
def csvRenderFields : List (List Char) → List Char
  | [] => []
  | [f] => csvEscapeField f
  | f :: fs => csvEscapeField f ++ ',' :: csvRenderFields fs

/-- One CSV row with the default `"\r\n"` terminator.  A row consisting of
a single empty field is quoted (Python's csv writer does this so the row
is not read back as a blank line). -/
def csvRenderRow (fs : List (List Char)) : List Char :=
  (match fs with
   | [f] => if f.isEmpty then ['"', '"'] else csvEscapeField f
   | _ => csvRenderFields fs) ++ ['\r', '\n']

/-- Log levels used by the script. -/
inductive LogLevel where
  | info
  | warning
deriving Repr, DecidableEq

/-- The observable outcome of `save_csv`: the content of the target file
after the call (`none` when it did not exist and was not written), and
the log messages emitted. -/
structure SaveOutcome where
  file : Option (List Char)
  log : List (LogLevel × String)
deriving Repr, DecidableEq

/-- `save_csv(items, filename)` (scraper.py lines 85–95).  `existing` is
the content of the target file before the call; opening with mode `"w"`
discards it. -/
def save_csv (items : List CsvRecord) (filename : String) (existing : Option (List Char)) :
    SaveOutcome :=
  match items with
  | [] => { file := existing, log := [(.warning, "No items to save")] }
  | first :: _ =>
    let keys := recordKeys first
    let header := csvRenderRow (keys.map String.data)
    let content :=
      items.foldl (fun acc it => acc ++ csvRenderRow ((csvRowOf it).map String.data)) header
    { file := some content
      log := [(.info, "Saved " ++ toString items.length ++ " items to " ++ filename)] }

/-! ### Reading CSV back (Python `csv.reader`, default dialect)

Used to state the round-trip property.  The reader is the character-level
state machine of Python's `_csv` module: fields separated by commas,
records terminated by `"\r\n"` (a lone `"\r"` or `"\n"` also ends a
record), blank lines skipped, quoted fields may contain any character
with `""` standing for one quote. -/

/-- Reader states: between records (start of file, or after a record
terminator), at the start of a field, inside an unquoted field, inside a
quoted field, or just after a quote character inside a quoted field. -/
inductive RMode where
  | betweenRecords
  | startField
  | inField
  | inQuoted
  | quoteInQuoted
deriving Repr, DecidableEq

/-- Reader state: current mode, the field and row being accumulated, and
the completed rows. -/
structure RState where
  mode : RMode
  field : List Char
  row : List (List Char)
  rows : List (List (List Char))
deriving Repr, DecidableEq

/-- Transition on a character at the start of a field. -/
def csvStepField (st : RState) (c : Char) : RState :=
  if c = ',' then { st with mode := .startField, field := [], row := st.row ++ [[]] }
  else if c = '"' then { st with mode := .inQuoted }
  else if c = '\r' || c = '\n' then
    { st with
        mode := .betweenRecords
        field := []
        row := []
        rows := st.rows ++ [st.row ++ [[]]] }
  else { st with mode := .inField, field := [c] }

/-- One transition of the reader. -/
def csvStep (st : RState) (c : Char) : RState :=
  match st.mode with
  | .betweenRecords =>
    if c = '\r' || c = '\n' then st else csvStepField st c
  | .startField => csvStepField st c
  | .inField =>
    if c = ',' then { st with mode := .startField, row := st.row ++ [st.field], field := [] }
    else if c = '\r' || c = '\n' then
      { st with
          mode := .betweenRecords
          rows := st.rows ++ [st.row ++ [st.field]]
          row := []
          field := [] }
    else { st with field := st.field ++ [c] }
  | .inQuoted =>
    if c = '"' then { st with mode := .quoteInQuoted }
    else { st with field := st.field ++ [c] }
  | .quoteInQuoted =>
    if c = '"' then { st with mode := .inQuoted, field := st.field ++ ['"'] }
    else if c = ',' then { st with mode := .startField, row := st.row ++ [st.field], field := [] }
    else if c = '\r' || c = '\n' then
      { st with
          mode := .betweenRecords
          rows := st.rows ++ [st.row ++ [st.field]]
          row := []
          field := [] }
    else { st with mode := .inField, field := st.field ++ [c] }

/-- Run the reader over a character stream. -/
def csvRun (st : RState) (cs : List Char) : RState :=
  cs.foldl csvStep st

/-- Flush the state at end of input: a partially read record is emitted. -/
def csvFinish (st : RState) : List (List (List Char)) :=
  match st.mode with
  | .betweenRecords => st.rows
  | .startField => st.rows ++ [st.row ++ [[]]]
  | _ => st.rows ++ [st.row ++ [st.field]]

/-- The initial reader state. -/
def csvInit : RState :=
  { mode := .betweenRecords, field := [], row := [], rows := [] }

/-- `list(csv.reader(file))`: the rows of a CSV document, each a list of
fields. -/
def csvRead (content : List Char) : List (List (List Char)) :=
  csvFinish (csvRun csvInit content)

/-! ### `fetch` -/

/-- The final HTTP response seen by `fetch`: status code and decoded body
text. -/
structure Response where
  status : Nat
  text : String
deriving Repr, DecidableEq

/-- The error raised by `requests.Response.raise_for_status`. -/
inductive FetchError where
  | httpStatusError (code : Nat)
deriving Repr, DecidableEq

/-- `fetch(url, session, timeout)` as a function of the final response:
`resp.raise_for_status()` raises `HTTPError` exactly when the status code
lies in `[400, 600)`; otherwise the body text is returned. -/
def fetch (resp : Response) : Except FetchError String :=
  if 400 ≤ resp.status ∧ resp.status < 600 then
    .error (.httpStatusError resp.status)
  else
    .ok resp.text

/-! ## Theorems -/

/-! ### Lemmas about the parsing loop -/

theorem capHit_some_iff (k : Int) (n : Nat) :
    capHit (some k) n = true ↔ k ≠ 0 ∧ k ≤ (n : Int) := by
  simp [capHit]

/-- With a positive cap `k`, the loop extends its accumulator by the
records of the next `k - |acc|` containers. -/
theorem parseLoop_take (k : Int) (cs : List Html) :
    ∀ acc : List Product, 0 < k → (acc.length : Int) < k →
      parseLoop (some k) cs acc = acc ++ (cs.take (k - acc.length).toNat).map extract := by
  induction cs with
  | nil => intro acc hk hlt; simp [parseLoop]
  | cons c cs ih =>
    intro acc hk hlt
    simp only [parseLoop]
    by_cases hcap : capHit (some k) (acc ++ [extract c]).length = true
    · rw [if_pos hcap]
      rw [capHit_some_iff] at hcap
      have hk1 : (k - acc.length).toNat = 1 := by
        simp [List.length_append] at hcap
        omega
      rw [hk1]
      simp
    · rw [if_neg hcap]
      rw [capHit_some_iff] at hcap
      simp [List.length_append] at hcap
      have hlt' : ((acc ++ [extract c]).length : Int) < k := by
        simp [List.length_append]
        omega
      rw [ih (acc ++ [extract c]) hk hlt']
      have h2 : (k - acc.length).toNat = (k - (acc ++ [extract c]).length).toNat + 1 := by
        simp [List.length_append]
        omega
      rw [h2]
      simp [List.take_succ_cons]

/-- The loop only ever appends to its accumulator. -/
theorem parseLoop_prefix (m : Option Int) (cs : List Html) :
    ∀ acc : List Product, ∃ tl, parseLoop m cs acc = acc ++ tl := by
  induction cs with
  | nil => intro acc; exact ⟨[], by simp [parseLoop]⟩
  | cons c cs ih =>
    intro acc
    simp only [parseLoop]
    by_cases hcap : capHit m (acc ++ [extract c]).length = true
    · exact ⟨[extract c], by rw [if_pos hcap]⟩
    · obtain ⟨tl, htl⟩ := ih (acc ++ [extract c])
      exact ⟨[extract c] ++ tl, by rw [if_neg hcap, htl, List.append_assoc]⟩

/-! ### C1 -/

/-- C1: for every document and every cap `k > 0` passed as `max_items`,
`parse_products` returns exactly the records of the first `k` containers
in document order, so its length is `min k (number of containers)`. -/
theorem parse_products_cap_pos (doc : List Html) (k : Int) (hk : 0 < k) :
    parse_products doc (some k) = ((containersOf doc).take k.toNat).map extract ∧
    (parse_products doc (some k)).length = min k.toNat (containersOf doc).length := by
  have h := parseLoop_take k (containersOf doc) [] hk (by simp; omega)
  simp only [parse_products]
  rw [h]
  simp

/-- C1 witness: cap 2 on a document with three containers keeps the first
two. -/
theorem parse_products_cap_pos_witness :
    (0 : Int) < 2 ∧
    (parse_products
      [Html.elem "div" [("class", "thumbnail")] [], Html.elem "div" [("class", "thumbnail")] [],
       Html.elem "div" [("class", "thumbnail")] []] (some 2)).length = 2 := by
  refine ⟨by decide, ?_⟩
  have h := (parse_products_cap_pos
    [Html.elem "div" [("class", "thumbnail")] [], Html.elem "div" [("class", "thumbnail")] [],
     Html.elem "div" [("class", "thumbnail")] []] 2 (by decide)).2
  rw [h]
  decide

/-! ### C10 -/

/-- C10: with at least one container and a negative `max_items`, the
result is exactly the first container's record: a negative integer is
truthy, so the cap test fires right after the first append. -/
theorem parse_products_cap_neg (doc : List Html) (k : Int) (c : Html) (cs : List Html)
    (hk : k < 0) (hc : containersOf doc = c :: cs) :
    parse_products doc (some k) = [extract c] := by
  have hcap : capHit (some k) (([] : List Product) ++ [extract c]).length = true := by
    rw [capHit_some_iff]
    exact ⟨by omega, by simp; omega⟩
  simp only [parse_products, hc, parseLoop]
  rw [if_pos hcap]
  simp

/-- C10 witness: `max_items = -1` on a document with two containers. -/
theorem parse_products_cap_neg_witness :
    (-1 : Int) < 0 ∧
    parse_products
      [Html.elem "div" [("class", "thumbnail")] [], Html.elem "div" [("class", "thumbnail")] []]
      (some (-1)) =
      [{ title := "", price := "", description := "", reviews := "", url := some "" }] := by
  refine ⟨by decide, ?_⟩
  have h := parse_products_cap_neg
    [Html.elem "div" [("class", "thumbnail")] [], Html.elem "div" [("class", "thumbnail")] []]
    (-1) (Html.elem "div" [("class", "thumbnail")] []) [Html.elem "div" [("class", "thumbnail")] []]
    (by decide) rfl
  rw [h]
  decide

/-! ### C3 -/

/-- C3: `parse_products` is total by construction (the Lean embedding is
a function, mirroring that every extraction step is guarded); a document
with no `div.thumbnail` container yields `[]`; and each field whose
selectors (primary and fallback) find nothing resolves to the empty
string (`url` resolving to the Python string `""`). -/
theorem parse_products_safe (doc : List Html) (m : Option Int) (c : Html) :
    (containersOf doc = [] → parse_products doc m = []) ∧
    (selectOne selATitle c = none → selectOne selA c = none →
      (extract c).title = "" ∧ (extract c).url = some "") ∧
    (selectOne selH4Price c = none → selectOne selDotPrice c = none → (extract c).price = "") ∧
    (selectOne selPDescription c = none → selectOne selP c = none →
      (extract c).description = "") ∧
    (selectOneDesc selDivRatings selPPullRight c = none → selectOne selDotRatings c = none →
      (extract c).reviews = "") := by
  refine ⟨?_, ?_, ?_, ?_, ?_⟩
  · intro h; simp only [parse_products, h, parseLoop]
  · intro h1 h2; simp [extract, h1, h2, Option.orElse, optText]
  · intro h1 h2; simp [extract, h1, h2, Option.orElse, optText]
  · intro h1 h2; simp [extract, h1, h2, Option.orElse, optText]
  · intro h1 h2; simp [extract, h1, h2, Option.orElse, optText]

/-- C3 witness: the empty document parses to `[]`, and a bare `div`
container yields all-empty fields. -/
theorem parse_products_safe_witness :
    parse_products [] none = [] ∧
    (extract (Html.elem "div" [] [])).title = "" ∧
    (extract (Html.elem "div" [] [])).url = some "" ∧
    (extract (Html.elem "div" [] [])).price = "" ∧
    (extract (Html.elem "div" [] [])).description = "" ∧
    (extract (Html.elem "div" [] [])).reviews = "" := by
  have h := parse_products_safe [] none (Html.elem "div" [] [])
  exact ⟨h.1 rfl, (h.2.1 rfl rfl).1, (h.2.1 rfl rfl).2, h.2.2.1 rfl rfl,
    h.2.2.2.1 rfl rfl, h.2.2.2.2 rfl rfl⟩

/-! ### C2 -/

/-- C2, failing input: a container whose title element has no `href`
attribute.  `title_tag.get("href")` is Python `None`, so the record's
`url` field is `none` — not a string, contradicting both the claim and
the function's own `List[Dict[str, str]]` annotation. -/
theorem parse_products_href_absent_is_none :
    parse_products
      [Html.elem "div" [("class", "thumbnail")]
        [Html.elem "a" [("class", "title")] [Html.text "Widget"]]] none =
      [{ title := "Widget", price := "", description := "", reviews := "", url := none }] := by
  decide

/-! ### C8 -/

/-- C8: the spec's end-to-end container parses to exactly the expected
record. -/
theorem parse_products_c8 :
    parse_products
      [Html.elem "div" [("class", "thumbnail")]
        [ Html.elem "a" [("class", "title"), ("href", "/x")] [Html.text "Widget"]
        , Html.elem "h4" [("class", "price")] [Html.text "$9.99"]
        , Html.elem "p" [("class", "description")] [Html.text "A widget"]
        , Html.elem "div" [("class", "ratings")]
            [Html.elem "p" [("class", "pull-right")] [Html.text "12 reviews"]] ]] none =
      [{ title := "Widget", price := "$9.99", description := "A widget",
         reviews := "12 reviews", url := some "/x" }] := by
  decide

/-! ### C9 -/

/-- C9: a first container with an anchor but no `a.title` match, and no
price/description/reviews elements under any selector, yields the record
built from that anchor: its stripped text as title, its `href` lookup as
url, and empty strings elsewhere. -/
theorem parse_products_anchor_fallback (doc : List Html) (m : Option Int) (c t : Html)
    (rest : List Html) (hdoc : containersOf doc = c :: rest)
    (h1 : selectOne selATitle c = none) (h2 : selectOne selA c = some t)
    (h3 : selectOne selH4Price c = none) (h4 : selectOne selDotPrice c = none)
    (h5 : selectOne selPDescription c = none) (h6 : selectOne selP c = none)
    (h7 : selectOneDesc selDivRatings selPPullRight c = none)
    (h8 : selectOne selDotRatings c = none) :
    (parse_products doc m).head? =
      some { title := getTextStrip t, price := "", description := "", reviews := "",
             url := attrGet t "href" } := by
  have hrec : extract c =
      { title := getTextStrip t, price := "", description := "", reviews := "",
        url := attrGet t "href" } := by
    simp [extract, h1, h2, h3, h4, h5, h6, h7, h8, Option.orElse, optText]
  simp only [parse_products, hdoc, parseLoop]
  by_cases hcap : capHit m ([] ++ [extract c]).length = true
  · rw [if_pos hcap]; simp [hrec]
  · rw [if_neg hcap]
    obtain ⟨tl, htl⟩ := parseLoop_prefix m rest ([] ++ [extract c])
    rw [htl]
    simp [hrec]

/-- C9 witness: a container holding only `<a href="/x">hi</a>`. -/
theorem parse_products_anchor_fallback_witness :
    (parse_products
      [Html.elem "div" [("class", "thumbnail")]
        [Html.elem "a" [("href", "/x")] [Html.text "hi"]]] none).head? =
      some { title := "hi", price := "", description := "", reviews := "", url := some "/x" } := by
  have h := parse_products_anchor_fallback
    [Html.elem "div" [("class", "thumbnail")] [Html.elem "a" [("href", "/x")] [Html.text "hi"]]]
    none
    (Html.elem "div" [("class", "thumbnail")] [Html.elem "a" [("href", "/x")] [Html.text "hi"]])
    (Html.elem "a" [("href", "/x")] [Html.text "hi"]) [] rfl rfl rfl rfl rfl rfl rfl rfl rfl
  rw [h]
  decide

/-! ### C7 -/

/-- C7, counterexample: a final status of 301 is non-2xx, yet `fetch`
returns the body instead of failing — `raise_for_status` only raises for
status codes in `[400, 600)`. -/
theorem fetch_301_ok :
    ¬ (200 ≤ 301 ∧ 301 < 300) ∧ fetch ⟨301, "moved"⟩ = Except.ok "moved" :=
  ⟨by decide, rfl⟩

/-- C7, amended: `fetch` fails with an `httpStatusError` carrying the
status code exactly when the final status is 4xx or 5xx, and returns the
decoded body text on every other status (2xx included). -/
theorem fetch_behavior (resp : Response) :
    (400 ≤ resp.status ∧ resp.status < 600 →
      fetch resp = Except.error (.httpStatusError resp.status)) ∧
    (¬ (400 ≤ resp.status ∧ resp.status < 600) → fetch resp = Except.ok resp.text) := by
  constructor <;> intro h <;> simp [fetch, h]

/-- C7 witness: a 404 fails with its status code, a 200 returns the body. -/
theorem fetch_behavior_witness :
    fetch ⟨404, "x"⟩ = Except.error (.httpStatusError 404) ∧
    fetch ⟨200, "ok"⟩ = Except.ok "ok" :=
  ⟨(fetch_behavior ⟨404, "x"⟩).1 (by decide), (fetch_behavior ⟨200, "ok"⟩).2 (by decide)⟩

/-! ### C4 -/

/-- C4: on an empty record list, `save_csv` leaves the target file's
content unchanged whatever it was, emits exactly one warning-level
message, and (being a total function) does not raise. -/
theorem save_csv_empty (filename : String) (existing : Option (List Char)) :
    (save_csv [] filename existing).file = existing ∧
    (save_csv [] filename existing).log = [(.warning, "No items to save")] :=
  ⟨rfl, rfl⟩

/-! ### C5 -/

theorem foldl_append_join {α β : Type} (g : α → List β) (l : List α) :
    ∀ acc : List β, l.foldl (fun a x => a ++ g x) acc = acc ++ (l.map g).flatten := by
  induction l with
  | nil => intro acc; simp
  | cons x xs ih => intro acc; simp [List.foldl_cons, ih, List.append_assoc]

/-- The file content written for a nonempty record list: the header row
from the first record's keys, then one rendered row per record, in
order.  Shared by the C5 and C6 theorems. -/
theorem save_csv_content (items : List CsvRecord) (filename : String)
    (existing : Option (List Char)) (h : items ≠ []) :
    (save_csv items filename existing).file =
      some (csvRenderRow ((recordKeys (items.head h)).map String.data) ++
        (items.map (fun r => csvRenderRow ((csvRowOf r).map String.data))).flatten) := by
  match items, h with
  | first :: rest, _ =>
    simp only [save_csv, List.head]
    rw [foldl_append_join]

/-- C5: for a nonempty record list, `save_csv` overwrites the target (the
result does not depend on the prior content) with a header row made of
the first record's keys in original order followed by exactly one data
row per record in input order, and logs one info message. -/
theorem save_csv_nonempty (items : List CsvRecord) (filename : String)
    (existing : Option (List Char)) (h : items ≠ []) :
    (save_csv items filename existing).file =
      some (csvRenderRow ((recordKeys (items.head h)).map String.data) ++
        (items.map (fun r => csvRenderRow ((csvRowOf r).map String.data))).flatten) ∧
    (save_csv items filename existing).log =
      [(.info, "Saved " ++ toString items.length ++ " items to " ++ filename)] := by
  refine ⟨save_csv_content items filename existing h, ?_⟩
  match items, h with
  | first :: rest, _ => rfl

/-- C5 witness: one plain record produces the expected two-line file. -/
theorem save_csv_nonempty_witness :
    (save_csv [⟨"a", "b", "c", "d", "e"⟩] "f.csv" none).file =
      some ("title,price,description,reviews,url\r\na,b,c,d,e\r\n".data) ∧
    (save_csv [⟨"a", "b", "c", "d", "e"⟩] "f.csv" none).log =
      [(.info, "Saved 1 items to f.csv")] := by
  have h := save_csv_nonempty [⟨"a", "b", "c", "d", "e"⟩] "f.csv" none (by simp)
  constructor
  · rw [h.1]; rfl
  · rw [h.2]; rfl

/-! ### C6: reader lemmas -/

theorem csvRun_cons (st : RState) (c : Char) (cs : List Char) :
    csvRun st (c :: cs) = csvRun (csvStep st c) cs := rfl

theorem csvRun_append (st : RState) (xs ys : List Char) :
    csvRun st (xs ++ ys) = csvRun (csvRun st xs) ys :=
  List.foldl_append csvStep st xs ys

theorem csvEscInner_quote (cs : List Char) :
    csvEscInner ('"' :: cs) = '"' :: '"' :: csvEscInner cs := by
  simp [csvEscInner]

theorem csvEscInner_other (c : Char) (cs : List Char) (h : ¬ c = '"') :
    csvEscInner (c :: cs) = c :: csvEscInner cs := by
  simp [csvEscInner, h]

/-- Inside a quoted field, reading the escaped body appends exactly the
original field text. -/
theorem csvRun_escInner (f : List Char) :
    ∀ field row rows, csvRun ⟨.inQuoted, field, row, rows⟩ (csvEscInner f) =
      ⟨.inQuoted, field ++ f, row, rows⟩ := by
  induction f with
  | nil => intro field row rows; simp [csvEscInner, csvRun]
  | cons c cs ih =>
    intro field row rows
    by_cases hc : c = '"'
    · subst hc
      rw [csvEscInner_quote]
      rw [csvRun_cons, show csvStep ⟨.inQuoted, field, row, rows⟩ '"' =
        ⟨.quoteInQuoted, field, row, rows⟩ from rfl]
      rw [csvRun_cons, show csvStep ⟨.quoteInQuoted, field, row, rows⟩ '"' =
        ⟨.inQuoted, field ++ ['"'], row, rows⟩ from rfl]
      rw [ih]
      simp
    · rw [csvEscInner_other c cs hc]
      rw [csvRun_cons]
      have hstep : csvStep ⟨.inQuoted, field, row, rows⟩ c =
          ⟨.inQuoted, field ++ [c], row, rows⟩ := by
        simp [csvStep, hc]
      rw [hstep, ih]
      simp

/-- Inside an unquoted field, ordinary characters are appended as-is. -/
theorem csvRun_unquoted (f : List Char) :
    ∀ field row rows, (∀ c ∈ f, csvSpecial c = false) →
      csvRun ⟨.inField, field, row, rows⟩ f = ⟨.inField, field ++ f, row, rows⟩ := by
  induction f with
  | nil => intro field row rows _; simp [csvRun]
  | cons c cs ih =>
    intro field row rows hf
    have hc := hf c (List.mem_cons_self c cs)
    simp only [csvSpecial, Bool.or_eq_false_iff, decide_eq_false_iff_not] at hc
    obtain ⟨⟨⟨h1, h2⟩, h3⟩, h4⟩ := hc
    rw [csvRun_cons]
    have hstep : csvStep ⟨.inField, field, row, rows⟩ c =
        ⟨.inField, field ++ [c], row, rows⟩ := by
      simp [csvStep, h1, h3, h4]
    rw [hstep, ih (field ++ [c]) row rows (fun x hx => hf x (List.mem_cons_of_mem c hx))]
    simp

theorem csvNeedsQuote_false (f : List Char) (h : csvNeedsQuote f = false) :
    ∀ c ∈ f, csvSpecial c = false := by
  simpa [csvNeedsQuote, List.any_eq_false] using h

/-- Reading an escaped field followed by a comma, from the start of a
field (or of a record), recovers exactly the original field. -/
theorem csvRun_field_comma (m : RMode) (hm : m = .betweenRecords ∨ m = .startField)
    (f : List Char) (row : List (List Char)) (rows : List (List (List Char))) :
    csvRun ⟨m, [], row, rows⟩ (csvEscapeField f ++ [',']) =
      ⟨.startField, [], row ++ [f], rows⟩ := by
  have hdispatch : ∀ c : Char, (decide (c = '\r') || decide (c = '\n')) = false →
      csvStep ⟨m, [], row, rows⟩ c = csvStepField ⟨m, [], row, rows⟩ c := by
    intro c hc
    rcases hm with hm | hm <;> subst hm <;> simp [csvStep, hc]
  by_cases hq : csvNeedsQuote f = true
  · simp only [csvEscapeField, if_pos hq]
    rw [List.cons_append, csvRun_cons]
    rw [hdispatch '"' (by decide)]
    rw [show csvStepField ⟨m, [], row, rows⟩ '"' = ⟨.inQuoted, [], row, rows⟩ from by
      simp [csvStepField]]
    rw [List.append_assoc, csvRun_append, csvRun_escInner]
    rw [show (['"'] ++ [','] : List Char) = ['"', ','] from rfl]
    rw [csvRun_cons, show csvStep ⟨.inQuoted, [] ++ f, row, rows⟩ '"' =
      ⟨.quoteInQuoted, [] ++ f, row, rows⟩ from rfl]
    rw [csvRun_cons, show csvStep ⟨.quoteInQuoted, [] ++ f, row, rows⟩ ',' =
      ⟨.startField, [], row ++ [[] ++ f], rows⟩ from rfl]
    simp [csvRun]
  · have hq' : csvNeedsQuote f = false := by simpa using hq
    have hspec := csvNeedsQuote_false f hq'
    simp only [csvEscapeField, hq', if_neg Bool.false_ne_true]
    match f, hspec with
    | [], _ =>
      rw [List.nil_append, csvRun_cons]
      rw [hdispatch ',' (by decide)]
      rw [show csvStepField ⟨m, [], row, rows⟩ ',' =
        ⟨.startField, [], row ++ [[]], rows⟩ from by simp [csvStepField]]
      simp [csvRun]
    | c :: cs, hspec =>
      have hc := hspec c (List.mem_cons_self c cs)
      simp only [csvSpecial, Bool.or_eq_false_iff, decide_eq_false_iff_not] at hc
      obtain ⟨⟨⟨h1, h2⟩, h3⟩, h4⟩ := hc
      rw [List.cons_append, csvRun_cons]
      rw [hdispatch c (by simp [h3, h4])]
      rw [show csvStepField ⟨m, [], row, rows⟩ c = ⟨.inField, [c], row, rows⟩ from by
        simp [csvStepField, h1, h2, h3, h4]]
      rw [csvRun_append]
      rw [csvRun_unquoted cs [c] row rows (fun x hx => hspec x (List.mem_cons_of_mem c hx))]
      rw [csvRun_cons, show csvStep ⟨.inField, [c] ++ cs, row, rows⟩ ',' =
        ⟨.startField, [], row ++ [[c] ++ cs], rows⟩ from rfl]
      simp [csvRun]

/-- Reading an escaped field followed by the record terminator finishes
the row and returns to the between-records state. -/
theorem csvRun_field_crlf (f : List Char) (row : List (List Char))
    (rows : List (List (List Char))) :
    csvRun ⟨.startField, [], row, rows⟩ (csvEscapeField f ++ ['\r', '\n']) =
      ⟨.betweenRecords, [], [], rows ++ [row ++ [f]]⟩ := by
  by_cases hq : csvNeedsQuote f = true
  · simp only [csvEscapeField, if_pos hq]
    rw [List.cons_append, csvRun_cons]
    rw [show csvStep ⟨RMode.startField, [], row, rows⟩ '"' =
      ⟨.inQuoted, [], row, rows⟩ from rfl]
    rw [List.append_assoc, csvRun_append, csvRun_escInner]
    rw [show (['"'] ++ ['\r', '\n'] : List Char) = ['"', '\r', '\n'] from rfl]
    rw [csvRun_cons, show csvStep ⟨.inQuoted, [] ++ f, row, rows⟩ '"' =
      ⟨.quoteInQuoted, [] ++ f, row, rows⟩ from rfl]
    rw [csvRun_cons, show csvStep ⟨.quoteInQuoted, [] ++ f, row, rows⟩ '\r' =
      ⟨.betweenRecords, [], [], rows ++ [row ++ [[] ++ f]]⟩ from rfl]
    rw [csvRun_cons, show csvStep ⟨.betweenRecords, [], [],
      rows ++ [row ++ [[] ++ f]]⟩ '\n' = ⟨.betweenRecords, [], [],
      rows ++ [row ++ [[] ++ f]]⟩ from rfl]
    simp [csvRun]
  · have hq' : csvNeedsQuote f = false := by simpa using hq
    have hspec := csvNeedsQuote_false f hq'
    simp only [csvEscapeField, hq', if_neg Bool.false_ne_true]
    match f, hspec with
    | [], _ =>
      rw [List.nil_append, csvRun_cons]
      rw [show csvStep ⟨RMode.startField, [], row, rows⟩ '\r' =
        ⟨.betweenRecords, [], [], rows ++ [row ++ [[]]]⟩ from rfl]
      rw [csvRun_cons, show csvStep ⟨RMode.betweenRecords, [], [],
        rows ++ [row ++ [[]]]⟩ '\n' = ⟨.betweenRecords, [], [],
        rows ++ [row ++ [[]]]⟩ from rfl]
      simp [csvRun]
    | c :: cs, hspec =>
      have hc := hspec c (List.mem_cons_self c cs)
      simp only [csvSpecial, Bool.or_eq_false_iff, decide_eq_false_iff_not] at hc
      obtain ⟨⟨⟨h1, h2⟩, h3⟩, h4⟩ := hc
      rw [List.cons_append, csvRun_cons]
      rw [show csvStep ⟨RMode.startField, [], row, rows⟩ c =
        csvStepField ⟨RMode.startField, [], row, rows⟩ c from rfl]
      rw [show csvStepField ⟨RMode.startField, [], row, rows⟩ c =
        ⟨.inField, [c], row, rows⟩ from by simp [csvStepField, h1, h2, h3, h4]]
      rw [csvRun_append]
      rw [csvRun_unquoted cs [c] row rows (fun x hx => hspec x (List.mem_cons_of_mem c hx))]
      rw [csvRun_cons, show csvStep ⟨.inField, [c] ++ cs, row, rows⟩ '\r' =
        ⟨.betweenRecords, [], [], rows ++ [row ++ [[c] ++ cs]]⟩ from rfl]
      rw [csvRun_cons, show csvStep ⟨.betweenRecords, [], [],
        rows ++ [row ++ [[c] ++ cs]]⟩ '\n' = ⟨.betweenRecords, [], [],
        rows ++ [row ++ [[c] ++ cs]]⟩ from rfl]
      simp [csvRun]

theorem renderRow5_decomp (a b c d e : List Char) :
    csvRenderRow [a, b, c, d, e] =
      (csvEscapeField a ++ [',']) ++ ((csvEscapeField b ++ [',']) ++
        ((csvEscapeField c ++ [',']) ++ ((csvEscapeField d ++ [',']) ++
          (csvEscapeField e ++ ['\r', '\n'])))) := by
  simp [csvRenderRow, csvRenderFields, List.append_assoc]

/-- Reading one rendered five-field row recovers exactly its fields. -/
theorem csvRun_row5 (a b c d e : List Char) (m : RMode)
    (hm : m = .betweenRecords ∨ m = .startField) (rows : List (List (List Char))) :
    csvRun ⟨m, [], [], rows⟩ (csvRenderRow [a, b, c, d, e]) =
      ⟨.betweenRecords, [], [], rows ++ [[a, b, c, d, e]]⟩ := by
  rw [renderRow5_decomp]
  rw [csvRun_append, csvRun_append, csvRun_append, csvRun_append]
  rw [csvRun_field_comma m hm a [] rows]
  simp only [List.nil_append, List.cons_append]
  rw [csvRun_field_comma .startField (Or.inr rfl) b [a] rows]
  simp only [List.nil_append, List.cons_append]
  rw [csvRun_field_comma .startField (Or.inr rfl) c [a, b] rows]
  simp only [List.nil_append, List.cons_append]
  rw [csvRun_field_comma .startField (Or.inr rfl) d [a, b, c] rows]
  simp only [List.nil_append, List.cons_append]
  rw [csvRun_field_crlf e [a, b, c, d] rows]
  simp

theorem csvRowOf_data (r : CsvRecord) :
    (csvRowOf r).map String.data =
      [r.title.data, r.price.data, r.description.data, r.reviews.data, r.url.data] := rfl

/-- Reading the concatenated rendered rows of a record list appends one
row of original fields per record. -/
theorem csvRun_rows (items : List CsvRecord) :
    ∀ rows, csvRun ⟨.betweenRecords, [], [], rows⟩
        ((items.map (fun r => csvRenderRow ((csvRowOf r).map String.data))).flatten) =
      ⟨.betweenRecords, [], [],
        rows ++ items.map (fun r => (csvRowOf r).map String.data)⟩ := by
  induction items with
  | nil => intro rows; simp [csvRun]
  | cons r rs ih =>
    intro rows
    simp only [List.map_cons, List.flatten_cons]
    rw [csvRun_append]
    rw [csvRowOf_data, csvRun_row5 _ _ _ _ _ _ (Or.inl rfl) rows]
    rw [ih]
    simp [csvRowOf_data]

/-- C6: writing any nonempty list of well-formed five-field records with
`save_csv` and re-reading the file with the csv reader yields the header
row followed by exactly one row per record whose fields equal the
original records' fields, character for character. -/
theorem save_csv_roundtrip (items : List CsvRecord) (filename : String)
    (existing : Option (List Char)) (h : items ≠ []) :
    (save_csv items filename existing).file.map csvRead =
      some (((recordKeys (items.head h)).map String.data) ::
        items.map (fun r => (csvRowOf r).map String.data)) := by
  rw [save_csv_content items filename existing h]
  simp only [Option.map_some']
  congr 1
  simp only [csvRead]
  rw [show csvRun csvInit (csvRenderRow ((recordKeys (items.head h)).map String.data) ++
      (items.map (fun r => csvRenderRow ((csvRowOf r).map String.data))).flatten) =
    csvRun (csvRun csvInit (csvRenderRow ((recordKeys (items.head h)).map String.data)))
      ((items.map (fun r => csvRenderRow ((csvRowOf r).map String.data))).flatten) from
    csvRun_append _ _ _]
  rw [show (recordKeys (items.head h)).map String.data =
    ["title".data, "price".data, "description".data, "reviews".data, "url".data] from rfl]
  rw [show (csvInit : RState) = ⟨.betweenRecords, [], [], []⟩ from rfl]
  rw [csvRun_row5 _ _ _ _ _ _ (Or.inl rfl) []]
  rw [csvRun_rows]
  simp [csvFinish]

/-- C6 witness: a record with a comma, a quote and an empty field
round-trips exactly. -/
theorem save_csv_roundtrip_witness :
    (save_csv [⟨"a,b", "q\"t", "c", "", "e"⟩] "f.csv" none).file.map csvRead =
      some [["title".data, "price".data, "description".data, "reviews".data, "url".data],
            ["a,b".data, "q\"t".data, "c".data, "".data, "e".data]] := by
  have h := save_csv_roundtrip [⟨"a,b", "q\"t", "c", "", "e"⟩] "f.csv" none (by simp)
  rw [h]
  rfl

end Scraper
